import Mathlib

set_option linter.unusedVariables false
set_option maxRecDepth 4000

/-! Shallow embedding of `dumpGpsData` from `src/gpsdrive.cpp` (the telemetry
dump accumulator extracted from the PX4 GPS driver), together with proofs of
the specification's properties about it.

Modelling conventions:
* machine integers are `Nat` with explicit reductions where the C types wrap:
  `dump_data->len` is a `uint8_t`, so every store to it reduces `% 256`;
  the C expression `GPS_DUMP_DATA_SIZE - dump_data->len` is an `int`
  subtraction whose value is converted to `size_t` (64-bit) in the comparison
  `write_len > ...` and in the assignment, captured by `roomVal`;
* the byte buffer `dump_data->data` is modelled as memory indexed from the
  buffer base (`Nat → Nat`), so that a `memcpy` reaching an index `≥ 200`
  models an out-of-bounds write and is visible in the model;
* each `memcpy` is recorded as a `CopyEvent` (destination offset, bytes
  available at the source cursor, bytes copied), and each simulated
  `_dump_communication_pub.publish(*dump_data)` as a `FlushEvent`;
* the `while (len > 0)` loop runs on fuel `data.length + 2`, which is proved
  sufficient below (every iteration with a non-empty input consumes at least
  one byte, except at most one iteration that instead resets a full buffer).
-/

/-- `GPS_DUMP_DATA_SIZE` from gpsdrive.cpp: the capacity of the dump buffer. -/
def GPS_DUMP_DATA_SIZE : Nat := 200

/-- `gps_dump_comm_mode_t` from gpsdrive.cpp. -/
inductive gps_dump_comm_mode_t : Type
  | Disabled
  | Full
  | RTCM
deriving DecidableEq

open gps_dump_comm_mode_t

/-- `gps_dump_s` from gpsdrive.cpp: the accumulator state.  `data` is the
200-byte buffer (see module comment), `len` the `uint8_t` fill cursor,
`inst` the `instance` field (renamed: `instance` is a Lean keyword), and
`timestamp` the `uint64_t` timestamp. -/
structure gps_dump_s where
  data : Nat → Nat
  len : Nat
  inst : Nat
  timestamp : Nat

/-- The `size_t` value of the C expression `GPS_DUMP_DATA_SIZE - dump_data->len`:
an `int` subtraction converted to unsigned 64-bit, which underflows to a huge
value when `len > 200`.  (18446744073709551616 = 2^64.) -/
def roomVal (l : Nat) : Nat :=
  (18446744073709551616 + GPS_DUMP_DATA_SIZE - l % 18446744073709551616) %
    18446744073709551616

/-- The value of `write_len` after
`size_t write_len = len; if (write_len > GPS_DUMP_DATA_SIZE - dump_data->len)
 write_len = GPS_DUMP_DATA_SIZE - dump_data->len;`. -/
def writeLenOf (bufLen inputLen : Nat) : Nat :=
  if inputLen > roomVal bufLen then roomVal bufLen else inputLen

/-- `memcpy` of `src` into the buffer at byte offset `off`. -/
def memcpyBuf (buf : Nat → Nat) (off : Nat) (src : List Nat) : Nat → Nat :=
  fun i => if off ≤ i ∧ i < off + src.length then src.getD (i - off) 0 else buf i

/-- Trace record of one `memcpy(dump_data->data + dump_data->len, data, write_len)`:
the destination offset `dstOff` (the fill cursor at that moment), the number of
bytes remaining at the input cursor `srcAvail`, and the number copied `copyLen`. -/
structure CopyEvent where
  dstOff : Nat
  srcAvail : Nat
  copyLen : Nat
deriving DecidableEq

/-- Trace record of one flush, i.e. the simulated
`_dump_communication_pub.publish(*dump_data)`: the 200 buffer bytes, the
published `len` field (after the `len |= 1 << 7` bit operation when
`msg_to_gps_device` is set), the `instance` field and the timestamp. -/
structure FlushEvent where
  bytes : List Nat
  reportedLen : Nat
  inst : Nat
  timestamp : Nat
deriving DecidableEq

/-- State of one execution of the `while (len > 0)` loop: the remaining input
(the C `data` pointer plus `len` counter), the accumulator, and the traces. -/
structure LoopState where
  data : List Nat
  dump : gps_dump_s
  copies : List CopyEvent
  flushes : List FlushEvent

/-- One iteration of the `while (len > 0)` loop body of `dumpGpsData`. -/
def dumpBody (msg_to_gps_device : Bool) (s : LoopState) : LoopState :=
  let write_len := writeLenOf s.dump.len s.data.length
  let buf := memcpyBuf s.dump.data s.dump.len (s.data.take write_len)
  let newLen := (s.dump.len + write_len) % 256
  if GPS_DUMP_DATA_SIZE ≤ newLen then
    { data := s.data.drop write_len
      dump := { data := buf, len := 0, inst := s.dump.inst, timestamp := 12345 }
      copies := s.copies ++ [⟨s.dump.len, s.data.length, write_len⟩]
      flushes := s.flushes ++
        [⟨(List.range GPS_DUMP_DATA_SIZE).map buf,
          if msg_to_gps_device then newLen ||| 128 else newLen,
          s.dump.inst, 12345⟩] }
  else
    { data := s.data.drop write_len
      dump := { data := buf, len := newLen, inst := s.dump.inst, timestamp := s.dump.timestamp }
      copies := s.copies ++ [⟨s.dump.len, s.data.length, write_len⟩]
      flushes := s.flushes }

/-- The `while (len > 0)` loop, with fuel. -/
def dumpLoopF (msg_to_gps_device : Bool) : Nat → LoopState → LoopState
  | 0, s => s
  | fuel + 1, s =>
    if s.data = [] then s
    else dumpLoopF msg_to_gps_device fuel (dumpBody msg_to_gps_device s)

/-- Observable result of one `dumpGpsData` call: the accumulator after the
call, the unconsumed input (empty iff the loop ran to completion), and the
copy / flush traces of the call. -/
structure DumpResult where
  dump_data : Option gps_dump_s
  leftover : List Nat
  copies : List CopyEvent
  flushes : List FlushEvent

/-- `dumpGpsData` from gpsdrive.cpp. -/
def dumpGpsData (data : List Nat) (mode : gps_dump_comm_mode_t)
    (msg_to_gps_device : Bool) (dump_data : Option gps_dump_s)
    (active_mode : gps_dump_comm_mode_t) : DumpResult :=
  match dump_data with
  | none => ⟨none, data, [], []⟩
  | some d =>
    if active_mode ≠ mode then ⟨some d, data, [], []⟩
    else
      let r := dumpLoopF msg_to_gps_device (data.length + 2)
        ⟨data, { d with inst := 0 }, [], []⟩
      ⟨some r.dump, r.data, r.copies, r.flushes⟩

/-- One call of a call sequence against the accumulator. -/
structure AppendCall where
  input : List Nat
  mode : gps_dump_comm_mode_t
  msg : Bool
  active : gps_dump_comm_mode_t

/-- The accumulator after one call of a sequence. -/
def appendCall (d : gps_dump_s) (c : AppendCall) : gps_dump_s :=
  match (dumpGpsData c.input c.mode c.msg (some d) c.active).dump_data with
  | some d2 => d2
  | none => d

/-- The accumulator after a sequence of `dumpGpsData` calls. -/
def runAppends (calls : List AppendCall) (d : gps_dump_s) : gps_dump_s :=
  calls.foldl appendCall d

/-- One active-channel call of a sequence, also accumulating the number of
flushes handed to the sink. -/
def activeStep (acc : gps_dump_s × Nat) (c : List Nat × Bool) : gps_dump_s × Nat :=
  (appendCall acc.1 ⟨c.1, Full, c.2, Full⟩,
   acc.2 + (dumpGpsData c.1 Full c.2 (some acc.1) Full).flushes.length)

/-- A sequence of active-channel `dumpGpsData` calls, returning the final
accumulator and the total number of flushes across the sequence. -/
def runActive (inputs : List (List Nat × Bool)) (d : gps_dump_s) : gps_dump_s × Nat :=
  inputs.foldl activeStep (d, 0)

/-- Every recorded `memcpy` of a trace stays inside the 200-byte buffer and
reads no further than the bytes available at the input cursor. -/
def copiesOk (l : List CopyEvent) : Prop :=
  ∀ ev ∈ l, ev.dstOff + ev.copyLen ≤ GPS_DUMP_DATA_SIZE ∧ ev.copyLen ≤ ev.srcAvail

/-- The memory past the end of the 200-byte buffer is untouched by the call. -/
def highBytesUntouched (d0 : gps_dump_s) (r : DumpResult) : Prop :=
  ∀ d2, r.dump_data = some d2 → ∀ i, GPS_DUMP_DATA_SIZE ≤ i → d2.data i = d0.data i

/-- A freshly constructed accumulator: `fill = 0`. -/
def zeroDump : gps_dump_s := ⟨fun _ => 0, 0, 0, 0⟩

/-- A corrupted accumulator: `len = 210 > 200` on entry (concrete scenario 4). -/
def corruptDump : gps_dump_s := ⟨fun _ => 0, 210, 0, 0⟩

/-- An accumulator with `fill = 190` (concrete scenario 2). -/
def d190 : gps_dump_s := ⟨fun _ => 0, 190, 0, 0⟩

/-- An accumulator whose `instance` field holds 5. -/
def instFiveDump : gps_dump_s := ⟨fun _ => 0, 0, 5, 0⟩

/-- The 30-byte input 1, 2, ..., 30 of concrete scenario 2. -/
def input30 : List Nat := (List.range 30).map (fun i => i + 1)

/-! ### Basic lemmas about one loop iteration -/

lemma roomVal_of_lt (l : Nat) (h : l < 200) : roomVal l = 200 - l := by
  unfold roomVal GPS_DUMP_DATA_SIZE
  omega

lemma writeLenOf_spec (l L : Nat) (h : l < 200) :
    writeLenOf l L ≤ L ∧ l + writeLenOf l L ≤ 200 ∧
      (1 ≤ L → 1 ≤ writeLenOf l L) ∧
      (writeLenOf l L < L → l + writeLenOf l L = 200) := by
  unfold writeLenOf
  rw [roomVal_of_lt l h]
  split <;> omega

lemma memcpyBuf_outside (buf : Nat → Nat) (off : Nat) (src : List Nat) (i : Nat)
    (h : off + src.length ≤ i) : memcpyBuf buf off src i = buf i := by
  unfold memcpyBuf
  rw [if_neg]
  omega

/-- All the facts about one iteration of the loop body needed for the loop
invariants, under the well-formedness hypothesis `fill < 200` on entry. -/
lemma dumpBody_spec (msg : Bool) (s : LoopState) (h : s.dump.len < 200) :
    (dumpBody msg s).dump.len < 200 ∧
    (dumpBody msg s).data = s.data.drop (writeLenOf s.dump.len s.data.length) ∧
    (dumpBody msg s).copies =
      s.copies ++ [⟨s.dump.len, s.data.length, writeLenOf s.dump.len s.data.length⟩] ∧
    200 * (dumpBody msg s).flushes.length + (dumpBody msg s).dump.len +
        (dumpBody msg s).data.length
      = 200 * s.flushes.length + s.dump.len + s.data.length ∧
    (∀ i, 200 ≤ i → (dumpBody msg s).dump.data i = s.dump.data i) ∧
    (writeLenOf s.dump.len s.data.length < s.data.length →
      (dumpBody msg s).dump.len = 0) := by
  have hw := writeLenOf_spec s.dump.len s.data.length h
  have hout : ∀ i, 200 ≤ i →
      memcpyBuf s.dump.data s.dump.len
        (s.data.take (writeLenOf s.dump.len s.data.length)) i = s.dump.data i := by
    intro i hi
    apply memcpyBuf_outside
    rw [List.length_take]
    omega
  simp only [dumpBody, GPS_DUMP_DATA_SIZE]
  by_cases hf : 200 ≤ (s.dump.len + writeLenOf s.dump.len s.data.length) % 256
  · rw [if_pos hf]
    dsimp only
    refine ⟨by omega, rfl, rfl, ?_, hout, fun _ => rfl⟩
    simp only [List.length_append, List.length_singleton, List.length_drop]
    omega
  · rw [if_neg hf]
    dsimp only
    refine ⟨by omega, rfl, rfl, ?_, hout, ?_⟩
    · simp only [List.length_drop]
      omega
    · intro hlt
      exact absurd hf (by omega)

lemma dumpLoopF_nil (msg : Bool) (f : Nat) (s : LoopState) (h : s.data = []) :
    dumpLoopF msg f s = s := by
  cases f with
  | zero => rfl
  | succ g => simp [dumpLoopF, h]

/-! ### Loop invariants -/

/-- The fill cursor stays strictly below the capacity across the loop. -/
lemma dumpLoopF_len_lt (msg : Bool) :
    ∀ (f : Nat) (s : LoopState), s.dump.len < 200 →
      (dumpLoopF msg f s).dump.len < 200 := by
  intro f
  induction f with
  | zero => intro s h; exact h
  | succ g ih =>
    intro s h
    by_cases hd : s.data = []
    · rw [dumpLoopF_nil msg _ s hd]; exact h
    · rw [dumpLoopF, if_neg hd]
      exact ih _ (dumpBody_spec msg s h).1

/-- Every copy event produced by the loop stays inside the buffer and inside
the available input. -/
lemma dumpLoopF_copies_ok (msg : Bool) :
    ∀ (f : Nat) (s : LoopState), s.dump.len < 200 →
      ∀ ev ∈ (dumpLoopF msg f s).copies,
        ev ∈ s.copies ∨
          (ev.dstOff + ev.copyLen ≤ 200 ∧ ev.copyLen ≤ ev.srcAvail) := by
  intro f
  induction f with
  | zero => intro s h ev hev; exact Or.inl hev
  | succ g ih =>
    intro s h ev hev
    by_cases hd : s.data = []
    · rw [dumpLoopF_nil msg _ s hd] at hev; exact Or.inl hev
    · rw [dumpLoopF, if_neg hd] at hev
      have hspec := dumpBody_spec msg s h
      have hw := writeLenOf_spec s.dump.len s.data.length h
      rcases ih _ hspec.1 ev hev with hin | hgood
      · rw [hspec.2.2.1] at hin
        rcases List.mem_append.mp hin with hin2 | hin2
        · exact Or.inl hin2
        · right
          rcases List.mem_singleton.mp hin2 with rfl
          refine ⟨?_, ?_⟩ <;> (dsimp only; omega)
      · exact Or.inr hgood

/-- The loop never writes a byte at an offset `≥ 200`. -/
lemma dumpLoopF_high (msg : Bool) :
    ∀ (f : Nat) (s : LoopState), s.dump.len < 200 →
      ∀ i, 200 ≤ i → (dumpLoopF msg f s).dump.data i = s.dump.data i := by
  intro f
  induction f with
  | zero => intro s h i hi; rfl
  | succ g ih =>
    intro s h i hi
    by_cases hd : s.data = []
    · rw [dumpLoopF_nil msg _ s hd]
    · rw [dumpLoopF, if_neg hd]
      have hspec := dumpBody_spec msg s h
      rw [ih _ hspec.1 i hi, hspec.2.2.2.2.1 i hi]

/-- Conservation across the loop: 200 bytes per flush plus the fill cursor
plus the unconsumed input is invariant. -/
lemma dumpLoopF_conservation (msg : Bool) :
    ∀ (f : Nat) (s : LoopState), s.dump.len < 200 →
      200 * (dumpLoopF msg f s).flushes.length + (dumpLoopF msg f s).dump.len +
          (dumpLoopF msg f s).data.length
        = 200 * s.flushes.length + s.dump.len + s.data.length := by
  intro f
  induction f with
  | zero => intro s h; rfl
  | succ g ih =>
    intro s h
    by_cases hd : s.data = []
    · rw [dumpLoopF_nil msg _ s hd]
    · rw [dumpLoopF, if_neg hd]
      have hspec := dumpBody_spec msg s h
      rw [ih _ hspec.1]
      exact hspec.2.2.2.1

/-- With fuel at least `|input| + 1`, the loop consumes the whole input. -/
lemma dumpLoopF_consumes (msg : Bool) :
    ∀ (f : Nat) (s : LoopState), s.dump.len < 200 → s.data.length + 1 ≤ f →
      (dumpLoopF msg f s).data = [] := by
  intro f
  induction f with
  | zero => intro s h hf; omega
  | succ g ih =>
    intro s h hf
    by_cases hd : s.data = []
    · rw [dumpLoopF_nil msg _ s hd]; exact hd
    · rw [dumpLoopF, if_neg hd]
      have hspec := dumpBody_spec msg s h
      have hw := writeLenOf_spec s.dump.len s.data.length h
      have hL : 1 ≤ s.data.length := by
        cases hdat : s.data with
        | nil => exact absurd hdat hd
        | cons a t => simp [hdat]
      apply ih _ hspec.1
      have : (dumpBody msg s).data.length =
          s.data.length - writeLenOf s.dump.len s.data.length := by
        rw [hspec.2.1, List.length_drop]
      omega

/-- Each iteration appends exactly one copy event (so `copies.length` counts
loop iterations). -/
lemma dumpBody_copies_len (msg : Bool) (s : LoopState) (h : s.dump.len < 200) :
    (dumpBody msg s).copies.length = s.copies.length + 1 := by
  rw [(dumpBody_spec msg s h).2.2.1, List.length_append, List.length_singleton]

/-- Iteration count bound for the loop started at `fill = 0`:
at most `⌈|input| / 200⌉` iterations, whatever the fuel. -/
lemma dumpLoopF_iters_zero (msg : Bool) :
    ∀ (f : Nat) (s : LoopState), s.dump.len = 0 →
      (dumpLoopF msg f s).copies.length ≤
        s.copies.length + (s.data.length + 199) / 200 := by
  intro f
  induction f with
  | zero => intro s h; simp only [dumpLoopF]; omega
  | succ g ih =>
    intro s h
    by_cases hd : s.data = []
    · rw [dumpLoopF_nil msg _ s hd]; omega
    · rw [dumpLoopF, if_neg hd]
      have h200 : s.dump.len < 200 := by omega
      have hspec := dumpBody_spec msg s h200
      have hw := writeLenOf_spec s.dump.len s.data.length h200
      have hL : 1 ≤ s.data.length := List.length_pos.mpr hd
      have hlen : (dumpBody msg s).data.length =
          s.data.length - writeLenOf s.dump.len s.data.length := by
        rw [hspec.2.1, List.length_drop]
      have hcop := dumpBody_copies_len msg s h200
      by_cases hall : writeLenOf s.dump.len s.data.length = s.data.length
      · have hnil : (dumpBody msg s).data = [] := by
          rw [hspec.2.1, hall, List.drop_length]
        rw [dumpLoopF_nil msg _ _ hnil]
        omega
      · have hlt : writeLenOf s.dump.len s.data.length < s.data.length := by
          omega
        have hfull : s.dump.len + writeLenOf s.dump.len s.data.length = 200 :=
          hw.2.2.2 hlt
        have := ih (dumpBody msg s) (hspec.2.2.2.2.2 hlt)
        omega

/-- Iteration count bound for the loop started at any `fill < 200`:
at most `⌈|input| / 200⌉ + 1` iterations, whatever the fuel. -/
lemma dumpLoopF_iters (msg : Bool) (f : Nat) (s : LoopState) (h : s.dump.len < 200) :
    (dumpLoopF msg f s).copies.length ≤
      s.copies.length + (s.data.length + 199) / 200 + 1 := by
  cases f with
  | zero => simp only [dumpLoopF]; omega
  | succ g =>
    by_cases hd : s.data = []
    · rw [dumpLoopF_nil msg _ s hd]; omega
    · rw [dumpLoopF, if_neg hd]
      have hspec := dumpBody_spec msg s h
      have hw := writeLenOf_spec s.dump.len s.data.length h
      have hL : 1 ≤ s.data.length := List.length_pos.mpr hd
      have hlen : (dumpBody msg s).data.length =
          s.data.length - writeLenOf s.dump.len s.data.length := by
        rw [hspec.2.1, List.length_drop]
      have hcop := dumpBody_copies_len msg s h
      by_cases hall : writeLenOf s.dump.len s.data.length = s.data.length
      · have hnil : (dumpBody msg s).data = [] := by
          rw [hspec.2.1, hall, List.drop_length]
        rw [dumpLoopF_nil msg _ _ hnil]
        omega
      · have hlt : writeLenOf s.dump.len s.data.length < s.data.length := by
          omega
        have := dumpLoopF_iters_zero msg g (dumpBody msg s) (hspec.2.2.2.2.2 hlt)
        have hmono : ((dumpBody msg s).data.length + 199) / 200 ≤
            (s.data.length + 199) / 200 :=
          Nat.div_le_div_right (by omega)
        omega

/-! ### Unfolding lemmas for `dumpGpsData` -/

/-- An inactive-channel call (`active_mode ≠ mode`) is an exact no-op. -/
lemma dumpGpsData_inactive (data : List Nat) (mode : gps_dump_comm_mode_t)
    (msg : Bool) (d : gps_dump_s) (active : gps_dump_comm_mode_t)
    (h : active ≠ mode) :
    dumpGpsData data mode msg (some d) active = ⟨some d, data, [], []⟩ := by
  simp only [dumpGpsData]
  rw [if_pos h]

/-- A call without an accumulator is an exact no-op. -/
lemma dumpGpsData_none (data : List Nat) (mode : gps_dump_comm_mode_t)
    (msg : Bool) (active : gps_dump_comm_mode_t) :
    dumpGpsData data mode msg none active = ⟨none, data, [], []⟩ := rfl

/-- An active-channel call runs the loop on `⟨data, d with instance 0, [], []⟩`. -/
lemma dumpGpsData_active (data : List Nat) (mode : gps_dump_comm_mode_t)
    (msg : Bool) (d : gps_dump_s) :
    dumpGpsData data mode msg (some d) mode =
      ⟨some (dumpLoopF msg (data.length + 2)
              ⟨data, { d with inst := 0 }, [], []⟩).dump,
       (dumpLoopF msg (data.length + 2) ⟨data, { d with inst := 0 }, [], []⟩).data,
       (dumpLoopF msg (data.length + 2) ⟨data, { d with inst := 0 }, [], []⟩).copies,
       (dumpLoopF msg (data.length + 2)
              ⟨data, { d with inst := 0 }, [], []⟩).flushes⟩ := by
  simp only [dumpGpsData]
  rw [if_neg (fun hc => hc rfl)]

/-! ### The `msg_to_gps_device` flag does not influence the stored state -/

/-- The loop body evolves `data` and `dump` identically for both values of the
`msg_to_gps_device` flag (the bit OR-ed into `len` at flush time is erased by
the reset `len = 0` before the iteration ends). -/
lemma dumpBody_msg_irrel (m1 m2 : Bool) (dt : List Nat) (dp : gps_dump_s)
    (c1 c2 : List CopyEvent) (fl1 fl2 : List FlushEvent) :
    (dumpBody m1 ⟨dt, dp, c1, fl1⟩).data = (dumpBody m2 ⟨dt, dp, c2, fl2⟩).data ∧
    (dumpBody m1 ⟨dt, dp, c1, fl1⟩).dump = (dumpBody m2 ⟨dt, dp, c2, fl2⟩).dump := by
  simp only [dumpBody]
  by_cases hf : GPS_DUMP_DATA_SIZE ≤ (dp.len + writeLenOf dp.len dt.length) % 256 <;>
    simp [hf]

/-- The loop evolves `data` and `dump` identically for both flag values. -/
lemma dumpLoopF_msg_irrel (m1 m2 : Bool) :
    ∀ (f : Nat) (s1 s2 : LoopState), s1.data = s2.data → s1.dump = s2.dump →
      (dumpLoopF m1 f s1).data = (dumpLoopF m2 f s2).data ∧
      (dumpLoopF m1 f s1).dump = (dumpLoopF m2 f s2).dump := by
  intro f
  induction f with
  | zero => intro s1 s2 h1 h2; exact ⟨h1, h2⟩
  | succ g ih =>
    intro s1 s2 h1 h2
    by_cases hd : s1.data = []
    · rw [dumpLoopF_nil m1 _ s1 hd, dumpLoopF_nil m2 _ s2 (h1 ▸ hd)]
      exact ⟨h1, h2⟩
    · rw [dumpLoopF, if_neg hd, dumpLoopF, if_neg (h1 ▸ hd)]
      apply ih
      · obtain ⟨dt1, dp1, cc1, ff1⟩ := s1
        obtain ⟨dt2, dp2, cc2, ff2⟩ := s2
        cases h1
        cases h2
        exact (dumpBody_msg_irrel m1 m2 dt1 dp1 cc1 cc2 ff1 ff2).1
      · obtain ⟨dt1, dp1, cc1, ff1⟩ := s1
        obtain ⟨dt2, dp2, cc2, ff2⟩ := s2
        cases h1
        cases h2
        exact (dumpBody_msg_irrel m1 m2 dt1 dp1 cc1 cc2 ff1 ff2).2

/-! ### Per-call and per-sequence facts -/

/-- An active-channel call on a well-formed accumulator consumes the whole
input, ends with `fill < 200`, and conserves bytes: 200 per flush plus the
final fill equals the initial fill plus the input length. -/
lemma dumpGpsData_active_spec (data : List Nat) (mode : gps_dump_comm_mode_t)
    (msg : Bool) (d : gps_dump_s) (h : d.len < 200) :
    ∃ d2, (dumpGpsData data mode msg (some d) mode).dump_data = some d2 ∧
      d2.len < 200 ∧
      (dumpGpsData data mode msg (some d) mode).leftover = [] ∧
      200 * (dumpGpsData data mode msg (some d) mode).flushes.length + d2.len =
        d.len + data.length := by
  rw [dumpGpsData_active]
  have h0 : (LoopState.mk data { d with inst := 0 } [] []).dump.len < 200 := h
  have hcons := dumpLoopF_conservation msg (data.length + 2)
    ⟨data, { d with inst := 0 }, [], []⟩ h0
  have hterm := dumpLoopF_consumes msg (data.length + 2)
    ⟨data, { d with inst := 0 }, [], []⟩ h0 (by dsimp only; omega)
  refine ⟨_, rfl, dumpLoopF_len_lt msg _ _ h0, hterm, ?_⟩
  rw [hterm] at hcons
  dsimp only at hcons ⊢
  simp only [List.length_nil] at hcons
  omega

/-- One call of a sequence keeps the accumulator well formed. -/
lemma appendCall_len_lt (d : gps_dump_s) (c : AppendCall) (h : d.len < 200) :
    (appendCall d c).len < 200 := by
  by_cases hm : c.active ≠ c.mode
  · unfold appendCall
    rw [dumpGpsData_inactive _ _ _ _ _ hm]
    exact h
  · push_neg at hm
    unfold appendCall
    rw [hm, dumpGpsData_active]
    exact dumpLoopF_len_lt c.msg _ _ h

/-- Any sequence of calls keeps the accumulator well formed. -/
lemma runAppends_len_lt :
    ∀ (calls : List AppendCall) (d : gps_dump_s), d.len < 200 →
      (runAppends calls d).len < 200 := by
  intro calls
  induction calls with
  | nil => intro d h; exact h
  | cons c rest ih =>
    intro d h
    rw [runAppends, List.foldl_cons]
    exact ih (appendCall d c) (appendCall_len_lt d c h)

/-- Conservation across a sequence of active-channel calls. -/
lemma runActive_conservation :
    ∀ (inputs : List (List Nat × Bool)) (d : gps_dump_s) (n : Nat), d.len < 200 →
      200 * (inputs.foldl activeStep (d, n)).2 +
          (inputs.foldl activeStep (d, n)).1.len
        = 200 * n + d.len + (inputs.map (fun c => c.1.length)).sum := by
  intro inputs
  induction inputs with
  | nil => intro d n h; simp
  | cons c rest ih =>
    intro d n h
    obtain ⟨d2, hd2, hlt, _, hcons⟩ := dumpGpsData_active_spec c.1 Full c.2 d h
    have hstep : activeStep (d, n) c =
        (d2, n + (dumpGpsData c.1 Full c.2 (some d) Full).flushes.length) := by
      unfold activeStep appendCall
      rw [hd2]
    rw [List.foldl_cons, hstep, List.map_cons, List.sum_cons, ih d2 _ hlt]
    omega

/-! ### Claims -/

/-- C1: the claim demands that a call entering with `fill = 210 > 200 = capacity`
fail fast, without computing `room = capacity - fill` as an unsigned underflowed
huge value and without copying any byte.  The code does the opposite: this
theorem evaluates the code at the failing input and shows that the room
underflows to `2^64 - 10`, that the `memcpy` proceeds with `write_len = 5` at
destination offset 210 (writing bytes at offsets 210..214, all past the
200-byte buffer), and that a byte is actually written at offset 210. -/
theorem C1_overflow_at_corrupt_fill :
    corruptDump.len = 210 ∧
    roomVal 210 = 18446744073709551606 ∧
    (dumpGpsData [1, 2, 3, 4, 5] Full false (some corruptDump) Full).copies =
      [⟨210, 5, 5⟩] ∧
    (dumpGpsData [1, 2, 3, 4, 5] Full false (some corruptDump) Full).dump_data.map
        (fun d2 => d2.data 210) = some 1 ∧
    GPS_DUMP_DATA_SIZE ≤ 210 := by
  decide

/-- C2: for every active-channel call with initial `0 ≤ fill < capacity` and an
input of any length, no byte is written into the buffer at an offset
`≥ capacity` and the copy never reads past the end of the input. -/
theorem C2_no_overflow_no_overread (data : List Nat) (mode : gps_dump_comm_mode_t)
    (msg : Bool) (d : gps_dump_s) (h : d.len < 200) :
    copiesOk (dumpGpsData data mode msg (some d) mode).copies ∧
    highBytesUntouched d (dumpGpsData data mode msg (some d) mode) := by
  rw [dumpGpsData_active]
  have h0 : (LoopState.mk data { d with inst := 0 } [] []).dump.len < 200 := h
  constructor
  · intro ev hev
    rcases dumpLoopF_copies_ok msg (data.length + 2)
        ⟨data, { d with inst := 0 }, [], []⟩ h0 ev hev with hin | hgood
    · simp at hin
    · exact hgood
  · intro d2 hd2 i hi
    have hhigh := dumpLoopF_high msg (data.length + 2)
      ⟨data, { d with inst := 0 }, [], []⟩ h0 i hi
    have heq : (dumpLoopF msg (data.length + 2)
        ⟨data, { d with inst := 0 }, [], []⟩).dump = d2 := Option.some.inj hd2
    rw [← heq]
    exact hhigh

theorem C2_no_overflow_no_overread_witness :
    copiesOk (dumpGpsData [1, 2, 3] Full false (some zeroDump) Full).copies ∧
    highBytesUntouched zeroDump (dumpGpsData [1, 2, 3] Full false (some zeroDump) Full) :=
  C2_no_overflow_no_overread [1, 2, 3] Full false zeroDump (by decide)

/-- C3: for every sequence of `dumpGpsData` calls in which each call starts with
`0 ≤ fill < capacity` (an invariant the code maintains, so it suffices to assume
it of the initial accumulator), the fill cursor after any call satisfies
`fill ≤ capacity`.  The code fixes `capacity = GPS_DUMP_DATA_SIZE = 200`. -/
theorem C3_fill_bounded (calls : List AppendCall) (d : gps_dump_s)
    (h : d.len < 200) : (runAppends calls d).len ≤ GPS_DUMP_DATA_SIZE :=
  Nat.le_of_lt (runAppends_len_lt calls d h)

theorem C3_fill_bounded_witness :
    (runAppends [⟨[1, 2, 3], Full, false, Full⟩] zeroDump).len ≤ GPS_DUMP_DATA_SIZE :=
  C3_fill_bounded [⟨[1, 2, 3], Full, false, Full⟩] zeroDump (by decide)

/-- C4 counterexample: the claim as stated quantifies over every sequence of
`append` calls and counts the bytes of every call, but a call whose routing
mode differs from the active mode silently drops its input: after the single
call `dumpGpsData [7] Disabled ... Full` on a fresh accumulator, flushed bytes
(200 per flush) plus the final fill is 0, not the 1 byte passed in. -/
theorem C4_inactive_call_loses_bytes :
    zeroDump.len = 0 ∧
    200 * (dumpGpsData [7] Disabled false (some zeroDump) Full).flushes.length +
        ((dumpGpsData [7] Disabled false (some zeroDump) Full).dump_data.map
          gps_dump_s.len).getD 0
      ≠ [7].length := by
  decide

/-- C4 (amended): for every sequence of active-channel `append` calls
(`routingMode = activeMode`, accumulator present) on an accumulator created
with `fill = 0`, the bytes handed to the flush sink (capacity = 200 bytes per
flush) plus the final fill equal the total input bytes passed in. -/
theorem C4_conservation_active (inputs : List (List Nat × Bool)) (d : gps_dump_s)
    (h : d.len = 0) :
    200 * (runActive inputs d).2 + (runActive inputs d).1.len =
      (inputs.map (fun c => c.1.length)).sum := by
  unfold runActive
  have := runActive_conservation inputs d 0 (by omega)
  omega

theorem C4_conservation_active_witness :
    200 * (runActive [(List.replicate 450 3, false)] zeroDump).2 +
        (runActive [(List.replicate 450 3, false)] zeroDump).1.len =
      ([(List.replicate 450 3, false)].map (fun c => c.1.length)).sum :=
  C4_conservation_active [(List.replicate 450 3, false)] zeroDump (by decide)

/-- C5: every active-channel call with initial `0 ≤ fill < capacity` terminates
after consuming its whole input, in at most `⌈inputLength / capacity⌉ + 1`
iterations of the internal while loop (one `CopyEvent` is recorded per
iteration, so `copies.length` is the iteration count). -/
theorem C5_terminates_iteration_bound (data : List Nat)
    (mode : gps_dump_comm_mode_t) (msg : Bool) (d : gps_dump_s) (h : d.len < 200) :
    (dumpGpsData data mode msg (some d) mode).leftover = [] ∧
    (dumpGpsData data mode msg (some d) mode).copies.length ≤
      (data.length + 199) / 200 + 1 := by
  rw [dumpGpsData_active]
  have h0 : (LoopState.mk data { d with inst := 0 } [] []).dump.len < 200 := h
  refine ⟨dumpLoopF_consumes msg _ _ h0 (by dsimp only; omega), ?_⟩
  have := dumpLoopF_iters msg (data.length + 2)
    ⟨data, { d with inst := 0 }, [], []⟩ h0
  dsimp only at this ⊢
  simpa using this

theorem C5_terminates_iteration_bound_witness :
    (dumpGpsData (List.replicate 450 7) Full false (some zeroDump) Full).leftover
        = [] ∧
    (dumpGpsData (List.replicate 450 7) Full false (some zeroDump) Full).copies.length
        ≤ ((List.replicate 450 7).length + 199) / 200 + 1 :=
  C5_terminates_iteration_bound (List.replicate 450 7) Full false zeroDump (by decide)

/-- C6 counterexample: a zero-length `append` on an active channel is NOT a
complete no-op: `dumpGpsData` executes `dump_data->instance = 0` before the
loop, so an accumulator whose instance field holds 5 comes back with 0. -/
theorem C6_zero_length_overwrites_instance :
    (dumpGpsData [] Full false (some instFiveDump) Full).dump_data.map
        gps_dump_s.inst
      ≠ some instFiveDump.inst := by
  decide

/-- C6 (amended): an active-channel `append` unconditionally stores the
constant instance id 0 (the code's `dump_data->instance = 0`) before the loop,
even for zero-length input; a zero-length call changes nothing else — buffer,
fill and timestamp are unchanged and no copy and no flush occurs — so it is a
complete no-op exactly when the instance field already holds 0. -/
theorem C6_zero_length_only_sets_instance (d : gps_dump_s)
    (mode : gps_dump_comm_mode_t) (msg : Bool) :
    dumpGpsData [] mode msg (some d) mode =
      ⟨some { d with inst := 0 }, [], [], []⟩ := by
  rw [dumpGpsData_active]
  rfl

/-- C7: a call whose routing mode differs from the active mode, or with no
accumulator, returns immediately and leaves the whole state unchanged — no
copy, no flush, and the accumulator (fill, buffer, timestamp, instance)
exactly as before. -/
theorem C7_inactive_noop (data : List Nat) (mode : gps_dump_comm_mode_t)
    (msg : Bool) (active : gps_dump_comm_mode_t) :
    (∀ d, active ≠ mode →
        dumpGpsData data mode msg (some d) active = ⟨some d, data, [], []⟩) ∧
    dumpGpsData data mode msg none active = ⟨none, data, [], []⟩ :=
  ⟨fun d h => dumpGpsData_inactive data mode msg d active h,
   dumpGpsData_none data mode msg active⟩

theorem C7_inactive_noop_witness :
    dumpGpsData [9] Full true (some instFiveDump) Disabled =
      ⟨some instFiveDump, [9], [], []⟩ :=
  (C7_inactive_noop [9] Full true Disabled).1 instFiveDump (by decide)

/-- C8: concrete scenario 2 — `capacity = 200`, `fill = 190`, input of length
30 (bytes 1..30): the first copy puts 10 bytes at offsets 190..199, exactly one
flush delivers exactly 200 bytes with the first 10 input bytes at the tail,
then the remaining 20 bytes are copied at offsets 0..19 and the final fill is
20. -/
theorem C8_scenario_fill190_len30 :
    (dumpGpsData input30 Full false (some d190) Full).copies =
      [⟨190, 30, 10⟩, ⟨0, 20, 20⟩] ∧
    (dumpGpsData input30 Full false (some d190) Full).flushes =
      [⟨List.replicate 190 0 ++ (List.range 10).map (fun i => i + 1),
        200, 0, 12345⟩] ∧
    (dumpGpsData input30 Full false (some d190) Full).dump_data.map gps_dump_s.len
      = some 20 ∧
    (dumpGpsData input30 Full false (some d190) Full).dump_data.map
        (fun d2 => (List.range 20).map d2.data)
      = some ((List.range 20).map (fun i => i + 11)) ∧
    (dumpGpsData input30 Full false (some d190) Full).leftover = [] := by
  decide

/-- C9: every active-channel call entering with `0 ≤ fill < capacity` returns
with `fill < capacity`: the accumulator is never left resting full, because
reaching `fill = capacity` is immediately followed by flush-and-reset inside
the same call. -/
theorem C9_never_full_at_return (data : List Nat) (mode : gps_dump_comm_mode_t)
    (msg : Bool) (d : gps_dump_s) (h : d.len < 200) :
    ∃ d2, (dumpGpsData data mode msg (some d) mode).dump_data = some d2 ∧
      d2.len < GPS_DUMP_DATA_SIZE := by
  obtain ⟨d2, hd2, hlt, _, _⟩ := dumpGpsData_active_spec data mode msg d h
  exact ⟨d2, hd2, hlt⟩

theorem C9_never_full_at_return_witness :
    ∃ d2, (dumpGpsData (List.replicate 200 1) Full false
        (some zeroDump) Full).dump_data = some d2 ∧
      d2.len < GPS_DUMP_DATA_SIZE :=
  C9_never_full_at_return (List.replicate 200 1) Full false zeroDump (by decide)

/-- C10: two calls from the same accumulator state with the same input bytes
and mode tags, differing only in the `msg_to_gps_device` flag, end in
identical accumulator states (buffer, fill, instance, timestamp): the bit
OR-ed into `len` at flush time is immediately erased by the reset `len = 0`
and never reaches any stored state or later bounds arithmetic. -/
theorem C10_flag_independent_state (data : List Nat)
    (mode active : gps_dump_comm_mode_t) (d : gps_dump_s) :
    (dumpGpsData data mode true (some d) active).dump_data =
      (dumpGpsData data mode false (some d) active).dump_data := by
  by_cases hm : active ≠ mode
  · rw [dumpGpsData_inactive data mode true d active hm,
        dumpGpsData_inactive data mode false d active hm]
  · push_neg at hm
    subst hm
    rw [dumpGpsData_active data _ true d, dumpGpsData_active data _ false d]
    exact congrArg some
      (dumpLoopF_msg_irrel true false (data.length + 2)
        ⟨data, { d with inst := 0 }, [], []⟩
        ⟨data, { d with inst := 0 }, [], []⟩ rfl rfl).2
